import Mathlib

/-!
Verification development for the s3py multipart-upload system.

The definitions below are a shallow embedding of the server handlers in
`src/s3py/api/v1/files.py` (operating on an explicit database state) and of
the upload client in `src/scripts/multipart_upload.py` (the chunked reader,
the chunk uploader and the part-registration loop).  Machine details that the
claims do not touch (HTTP transport, SQLAlchemy connection handling, asyncio
scheduling) are abstracted into explicit state passing; everything the claims
depend on (query predicates, filter application, ordering, status updates,
part numbering, validation rules) is translated line by line from the source.
-/

namespace S3py

/-! ## Data model (`src/s3py/models.py`) -/

/-- Row of the `upload` table.  `upload_id` is the primary key. -/
structure Upload where
  upload_id : String
  user_id : String
  key : String
  status : String
  deriving Repr, DecidableEq

/-- Row of the `part` table.  The SQLAlchemy model has an autoincrement
surrogate primary key and no uniqueness constraint on
`(upload_id, part_number)`; rows are therefore plain list entries here. -/
structure Part where
  upload_id : String
  user_id : String
  key : String
  etag : String
  part_number : Nat
  deriving Repr, DecidableEq

/-- The relational store: the `upload` and `part` tables. -/
structure DB where
  uploads : List Upload
  parts : List Part
  deriving Repr, DecidableEq

/-- Status literal written by `start_upload`. -/
def STATUS_INITIATED : String := "initiated"

/-- Status literal written by `upload_part`. -/
def STATUS_IN_PROGRESS : String := "in-progress"

/-- Status literal written by `complete_upload`. -/
def STATUS_COMPLETED : String := "completed"

/-! ## Server: `get_uploads` (files.py lines 37-57) -/

/-- Embedding of the `get_uploads` handler.  The source builds
`stmt = select(Upload).where(Upload.key == key)` and then, when a status
filter is supplied, evaluates `stmt.where(or_(Upload.status == s ...))`
WITHOUT assigning the result back to `stmt` (SQLAlchemy statements are
immutable, `.where` returns a new statement).  The executed statement is
therefore the key-only filter; the status-filtered statement is computed and
discarded, which the `discarded` binding below reproduces. -/
def get_uploads (db : DB) (key : String) (upload_status : Option (List String)) :
    List Upload :=
  let stmt := db.uploads.filter (fun u => u.key == key)
  let discarded :=
    match upload_status with
    | some statuses =>
        if statuses.isEmpty then stmt
        else stmt.filter (fun u => statuses.contains u.status)
    | none => stmt
  let _ := discarded
  stmt

/-! ## Server: `get_last_part` (files.py lines 117-140) -/

/-- Embedding of the `get_last_part` query:
`select(Part).where(Part.upload_id == upload_id).order_by(Part.part_number.desc()).limit(1)`,
i.e. a row of maximal `part_number` among the parts of the upload (the first
such row in store order), or `none` when the upload has no parts. -/
def get_last_part (db : DB) (upload_id : String) : Option Part :=
  (db.parts.filter (fun p => p.upload_id == upload_id)).foldl
    (fun acc p =>
      match acc with
      | none => some p
      | some q => if q.part_number < p.part_number then some p else acc)
    none

/-! ## Client: `get_existing_or_start_upload` (multipart_upload.py lines 146-218) -/

/-- Embedding of the client-side session resolver.  It asks `get_uploads` for
sessions on `filename` with status in `[INITIATED, IN_PROGRESS]`, takes the
first result when there is one and reads its last registered part number
(a failing/empty last-part lookup is swallowed into `0`); otherwise it starts
a fresh session (`fresh`, status `initiated`) with resume offset `0`.
Returns the chosen session and `last_part_number`. -/
def get_existing_or_start_upload (db : DB) (filename : String) (fresh : Upload) :
    Upload × Nat :=
  let in_progress_uploads :=
    get_uploads db filename (some [STATUS_INITIATED, STATUS_IN_PROGRESS])
  match in_progress_uploads with
  | upload :: _ =>
      let last_part_number :=
        match get_last_part db upload.upload_id with
        | some p => p.part_number
        | none => 0
      (upload, last_part_number)
  | [] => (fresh, 0)

/-! ## Server: `upload_part` (files.py lines 255-295) -/

/-- Request body of `POST /upload-part` (`UploadPartRequest` in models.py). -/
structure UploadPartRequest where
  upload_id : String
  key : String
  part_number : Nat
  etag : String
  user_id : String
  deriving Repr, DecidableEq

/-- Response body of `POST /upload-part`. -/
structure UploadPartResponse where
  success : Bool
  deriving Repr, DecidableEq

/-- Errors a handler can raise: `HTTPException(404, ...)` and SQLAlchemy
`MultipleResultsFound` (raised by `scalar_one_or_none` when the query matches
more than one row). -/
inductive ApiError where
  | httpNotFound (detail : String)
  | multipleResultsFound
  deriving Repr, DecidableEq

/-- SQLAlchemy `Result.scalar_one_or_none`: `none` on zero rows, the row on
exactly one, `MultipleResultsFound` otherwise. -/
def scalar_one_or_none (rows : List α) : Except ApiError (Option α) :=
  match rows with
  | [] => .ok none
  | [a] => .ok (some a)
  | _ => .error .multipleResultsFound

/-- The selection filter of `upload_part` and `complete_upload`:
`Upload.upload_id == request.upload_id, Upload.key == request.key,
Upload.user_id == request.user_id`. -/
def matches_upload (upload_id key user_id : String) (u : Upload) : Bool :=
  u.upload_id == upload_id && u.key == key && u.user_id == user_id

/-- The `Part` row `upload_part` constructs from its request. -/
def part_row (request : UploadPartRequest) : Part :=
  { upload_id := request.upload_id
    user_id := request.user_id
    key := request.key
    etag := request.etag
    part_number := request.part_number }

/-- Embedding of the `upload_part` handler.  It looks up the session by
`(upload_id, key, user_id)` (404 when absent), unconditionally inserts a new
`Part` row (no duplicate check of any kind), then unconditionally sets the
session status to `"in-progress"` (the status row is addressed by its primary
key `upload_id`), and returns `{success: True}` — the only return statement. -/
def upload_part (db : DB) (request : UploadPartRequest) :
    Except ApiError (DB × UploadPartResponse) :=
  match scalar_one_or_none
      (db.uploads.filter (matches_upload request.upload_id request.key request.user_id)) with
  | .error e => .error e
  | .ok none => .error (.httpNotFound "Upload not found")
  | .ok (some upload) =>
      let db1 := { db with parts := db.parts ++ [part_row request] }
      let db2 :=
        { db1 with
          uploads := db1.uploads.map (fun u =>
            if u.upload_id == upload.upload_id then
              { u with status := STATUS_IN_PROGRESS }
            else u) }
      .ok (db2, { success := true })

/-! ## Server: `complete_upload` (files.py lines 305-402) -/

/-- Request body of `POST /complete-upload`. -/
structure CompleteUploadRequest where
  upload_id : String
  key : String
  user_id : String
  deriving Repr, DecidableEq

/-- Response body of `POST /complete-upload`. -/
structure CompleteUploadResponse where
  message : String
  location : String
  key : String
  deriving Repr, DecidableEq

/-- One entry of the S3 `list_parts` response: part number, stored size and
integrity tag. -/
structure S3Part where
  part_number : Nat
  size : Nat
  etag : String
  deriving Repr, DecidableEq

/-- Failure modes of `complete_upload`: the 404 raised before the `try`
block, `MultipleResultsFound`, the two `ValueError`s raised by the validation
loop, and a failure of the final `complete_multipart_upload` call. -/
inductive CompleteError where
  | uploadNotFound
  | multipleResultsFound
  | partNotFoundUpstream (part_number : Nat)
  | partTooSmall (part_number : Nat) (size : Nat)
  | assembleFailed
  deriving Repr, DecidableEq

/-- The minimum-size floor of the validation loop:
`min_size = 5 * 1024 * 1024  # 5MB`. -/
def MIN_PART_SIZE : Nat := 5 * 1024 * 1024

/-- Stable insertion of a part into a list sorted ascending by
`part_number`. -/
def insert_by_part_number (p : Part) : List Part → List Part
  | [] => [p]
  | q :: rest =>
      if p.part_number < q.part_number then p :: q :: rest
      else q :: insert_by_part_number p rest

/-- `sorted(upload.parts, key=lambda x: x.part_number)`: a stable ascending
sort by `part_number`. -/
def sorted_by_part_number : List Part → List Part
  | [] => []
  | p :: rest => insert_by_part_number p (sorted_by_part_number rest)

/-- The dictionary `\x7bpart["PartNumber"]: part for part in Parts\x7d`:
later entries overwrite earlier ones, so lookup returns the last listing
entry with the given part number. -/
def s3_parts_lookup (listing : List S3Part) (n : Nat) : Option S3Part :=
  (listing.filter (fun sp => sp.part_number == n)).getLast?

/-- `max(p.part_number for p in sorted_parts)`: the maximum part number of
the session's rows (`0` only on an empty list, where the source expression
is never evaluated because the validation loop body does not run). -/
def max_part_number (parts : List Part) : Nat :=
  (parts.map Part.part_number).foldr max 0

/-- The validation loop of `complete_upload`: for each local part in sorted
order, require an entry in the S3 listing (`ValueError: Part ... not found in
S3` otherwise), then reject a part that is both smaller than `MIN_PART_SIZE`
and not a part of maximal number (`ValueError: Part ... is too small`). -/
def validate_parts (mx : Nat) (listing : List S3Part) :
    List Part → Option CompleteError
  | [] => none
  | p :: rest =>
      match s3_parts_lookup listing p.part_number with
      | none => some (.partNotFoundUpstream p.part_number)
      | some sp =>
          if sp.size < MIN_PART_SIZE && !(p.part_number == mx) then
            some (.partTooSmall p.part_number sp.size)
          else validate_parts mx listing rest

/-- Embedding of the `complete_upload` handler.  `listing` is the (assumed
successful) S3 `list_parts` response for the session and `assemble_ok`
whether `complete_multipart_upload` succeeds (returning `location`).  The
result is the updated database, the handler outcome, and whether
`abort_multipart_upload` was requested (the `except` block: abort is
attempted best-effort — its own failure is only printed — and the original
error is re-raised).  On the success path the session row is set to
`"completed"`; on every failure path the database is left unchanged. -/
def complete_upload (db : DB) (request : CompleteUploadRequest)
    (listing : List S3Part) (assemble_ok : Bool) (location : String) :
    DB × Except CompleteError CompleteUploadResponse × Bool :=
  match scalar_one_or_none
      (db.uploads.filter (matches_upload request.upload_id request.key request.user_id)) with
  | .error _ => (db, .error .multipleResultsFound, false)
  | .ok none => (db, .error .uploadNotFound, false)
  | .ok (some upload) =>
      let parts := db.parts.filter (fun p => p.upload_id == upload.upload_id)
      let sorted_parts := sorted_by_part_number parts
      match validate_parts (max_part_number sorted_parts) listing sorted_parts with
      | some e => (db, .error e, true)
      | none =>
          if assemble_ok then
            let db :=
              { db with
                uploads := db.uploads.map (fun u =>
                  if u.upload_id == upload.upload_id then
                    { u with status := STATUS_COMPLETED }
                  else u) }
            (db,
             .ok { message := "Upload completed successfully"
                   location := location
                   key := request.key },
             false)
          else (db, .error .assembleFailed, true)

/-! ## Client: `ChunkedBinaryReader.read_chunks` (multipart_upload.py lines 69-83) -/

/-- A file is its byte stream; bytes are modelled as naturals. -/
abbrev FileBytes := List Nat

/-- The loop of `read_chunks` after the seek: while the batch allowance is
not exhausted, `self.file.read(self.chunk_size)` returns the next
`chunk_size` bytes (fewer at end of file); an empty read breaks the loop,
otherwise the chunk is yielded and the allowance decremented. -/
def read_chunks_loop (chunk_size : Nat) (rest : FileBytes) (batch_size : Option Nat) :
    List FileBytes :=
  if batch_size = some 0 then []
  else if h : rest.take chunk_size = [] then []
  else rest.take chunk_size ::
    read_chunks_loop chunk_size (rest.drop chunk_size) (batch_size.map (· - 1))
termination_by rest.length
decreasing_by
  have hc : chunk_size ≠ 0 := fun hc => h (by simp [hc])
  have hr : rest ≠ [] := fun hr => h (by simp [hr])
  have hlen : 0 < rest.length := List.length_pos.mpr hr
  simp only [List.length_drop]
  omega

/-- The byte position `read_chunks` seeks to before reading:
`byte_offset = offset * self.chunk_size`. -/
def read_chunks_seek_position (offset chunk_size : Nat) : Nat :=
  offset * chunk_size

/-- Embedding of `read_chunks(offset, batch_size)` on a file whose bytes are
`file`: seek to `offset * chunk_size`, then read chunks of `chunk_size`
bytes until an empty read or `batch_size` chunks. -/
def read_chunks (file : FileBytes) (chunk_size : Nat) (offset : Nat)
    (batch_size : Option Nat) : List FileBytes :=
  read_chunks_loop chunk_size (file.drop (read_chunks_seek_position offset chunk_size))
    batch_size

/-! ## Client: `upload_chunks` (multipart_upload.py lines 221-294) -/

/-- One upload task created by `upload_chunks`: the 1-based logical part
index the chunk was enumerated with, and the chunk's bytes. -/
structure ChunkTask where
  part_idx : Nat
  chunk : FileBytes
  deriving Repr, DecidableEq

/-- The chunks the reader yields during an `upload_chunks` call: the loop
iterates over `reader.read_chunks(batch_idx, batch_size)`, so every yielded
chunk is read from the file even when its part index is later skipped. -/
def upload_chunks_reads (file : FileBytes) (chunk_size : Nat)
    (batch_idx : Nat) (batch_size : Option Nat) : List FileBytes :=
  read_chunks file chunk_size batch_idx batch_size

/-- The upload tasks `upload_chunks` creates, in creation order (which is
also the order of the returned `upload_responses`, since the task list is
awaited in order).  Chunks are enumerated with `part_idx` starting at
`batch_idx + 1`; a chunk with `part_idx <= last_part_number` is skipped
(`continue`) — no presigned URL, no task, no response. -/
def upload_chunks_tasks (file : FileBytes) (chunk_size : Nat)
    (last_part_number : Nat) (batch_idx : Nat) (batch_size : Option Nat) :
    List ChunkTask :=
  let chunks := upload_chunks_reads file chunk_size batch_idx batch_size
  let enumerated :=
    (List.range chunks.length).zipWith
      (fun i c => { part_idx := batch_idx + 1 + i, chunk := c : ChunkTask }) chunks
  enumerated.filter (fun t => !(t.part_idx ≤ last_part_number))

/-! ## Client: `register_uploaded_parts` (multipart_upload.py lines 297-358) -/

/-- One `httpx.Response` from `upload_to_presigned_url`, tagged with the
task it answered: the logical part index the chunk was uploaded as (the part
number in its presigned URL) and the chunk bytes; `etag` is the optional
`ETag` response header. -/
structure UploadHttpResponse where
  part_idx : Nat
  chunk : FileBytes
  etag : Option String
  deriving Repr, DecidableEq

/-- Client-side failures of the registration loop: the two `ValueError`s of
`register_uploaded_parts` and an `UnexpectedStatus` propagated from the
server handler. -/
inductive ClientError where
  | missingEtag
  | unexpectedStatus (e : ApiError)
  | registrationFailed (part_number : Nat)
  deriving Repr, DecidableEq

/-- The loop body of `register_uploaded_parts`, threading the server's
database state through the `upload_part` calls.  `index` is the enumeration
counter: the part number each response is registered under.  A missing
`ETag` header raises; a server error propagates; a returned response with
`success` false raises `ValueError: Error registering uploaded part`. -/
def register_parts_loop (user_id upload_id key : String) :
    DB → List UploadHttpResponse → Nat → Except ClientError DB
  | db, [], _ => .ok db
  | db, r :: rest, index =>
      match r.etag with
      | none => .error .missingEtag
      | some tag =>
          match upload_part db
              { upload_id := upload_id, key := key, part_number := index,
                etag := tag, user_id := user_id } with
          | .error e => .error (.unexpectedStatus e)
          | .ok (db1, result) =>
              if result.success then
                register_parts_loop user_id upload_id key db1 rest (index + 1)
              else .error (.registrationFailed index)

/-- `register_uploaded_parts(client, user_id, upload, upload_responses,
start_offset)`: enumerate the responses with part numbers starting at
`start_offset + 1` and register each. -/
def register_uploaded_parts (db : DB) (user_id upload_id key : String)
    (upload_responses : List UploadHttpResponse) (start_offset : Nat) :
    Except ClientError DB :=
  register_parts_loop user_id upload_id key db upload_responses (start_offset + 1)

/-- The pairing `enumerate(upload_responses, start=start_offset + 1)`
performs, with each response reduced to the logical part index of the chunk
it carries: each pair is `(part number registered under, logical 1-based
position of the chunk in the file)`. -/
def registration_assignments (tasks : List ChunkTask) (start_offset : Nat) :
    List (Nat × Nat) :=
  (List.range tasks.length).zipWith
    (fun j t => (start_offset + 1 + j, t.part_idx)) tasks

/-! ## Client: `upload_batched` (multipart_upload.py lines 480-506) -/

/-- `math.ceil(file_size / CHUNK_SIZE)` for positive divisor. -/
def ceil_div (a b : Nat) : Nat := (a + b - 1) / b

/-- `range(0, num_chunks, K)`: the batch start indices. -/
def batch_starts (num_chunks K : Nat) : List Nat :=
  (List.range (ceil_div num_chunks K)).map (· * K)

/-- The `(registered part number, logical chunk position)` pairs produced by
a whole `upload_batched` run: for each `batch_idx` in
`range(0, num_chunks, K)` it calls
`upload_chunks(..., last_part_number, CHUNK_SIZE, batch_idx, K)` and then
`register_uploaded_parts(..., upload_responses, batch_idx)` — the
`start_offset` passed is `batch_idx`, not `batch_idx + last_part_number`. -/
def upload_batched_assignments (file : FileBytes) (chunk_size last_part_number K : Nat) :
    List (Nat × Nat) :=
  let num_chunks := ceil_div file.length chunk_size
  (batch_starts num_chunks K).flatMap (fun batch_idx =>
    registration_assignments
      (upload_chunks_tasks file chunk_size last_part_number batch_idx (some K))
      batch_idx)

/-- The same pairs for `upload_simple` (multipart_upload.py lines 469-477):
one `upload_chunks` call over the whole file with `batch_idx = 0`, then
`register_uploaded_parts` with `start_offset = last_part_number`. -/
def upload_simple_assignments (file : FileBytes) (chunk_size last_part_number : Nat) :
    List (Nat × Nat) :=
  registration_assignments
    (upload_chunks_tasks file chunk_size last_part_number 0 none)
    last_part_number

/-! ## Concrete fixtures used by witnesses and counterexamples -/

/-- A session that already reached `"completed"`. -/
def fx_completed_upload : Upload :=
  { upload_id := "up1", user_id := "minio_user", key := "f.bin", status := STATUS_COMPLETED }

/-- A store holding only the completed session. -/
def fx_db_completed : DB := { uploads := [fx_completed_upload], parts := [] }

/-- The fresh session `start_upload` would create. -/
def fx_fresh_upload : Upload :=
  { upload_id := "up-new", user_id := "minio_user", key := "f.bin", status := STATUS_INITIATED }

/-- A freshly initiated session. -/
def fx_initiated_upload : Upload :=
  { upload_id := "up1", user_id := "minio_user", key := "f.bin", status := STATUS_INITIATED }

/-- A store holding only the initiated session, no parts. -/
def fx_db_initiated : DB := { uploads := [fx_initiated_upload], parts := [] }

/-- Registration request for part 1 with tag `"e1"`. -/
def fx_req_part1 : UploadPartRequest :=
  { upload_id := "up1", key := "f.bin", part_number := 1, etag := "e1", user_id := "minio_user" }

/-- Registration request for part 1 with the differing tag `"e1-other"`. -/
def fx_req_part1_other : UploadPartRequest :=
  { upload_id := "up1", key := "f.bin", part_number := 1, etag := "e1-other", user_id := "minio_user" }

/-- An in-progress session owning parts numbered 1 and 3 (a gap at 2). -/
def fx_db_gap : DB :=
  { uploads := [{ upload_id := "up1", user_id := "minio_user", key := "f.bin",
                  status := STATUS_IN_PROGRESS }],
    parts := [{ upload_id := "up1", user_id := "minio_user", key := "f.bin",
                etag := "e1", part_number := 1 },
              { upload_id := "up1", user_id := "minio_user", key := "f.bin",
                etag := "e3", part_number := 3 }] }

/-- Completion request for the session of `fx_db_gap`. -/
def fx_complete_req : CompleteUploadRequest :=
  { upload_id := "up1", key := "f.bin", user_id := "minio_user" }

/-- An S3 listing for parts 1 and 3, both large enough. -/
def fx_listing_gap : List S3Part :=
  [{ part_number := 1, size := MIN_PART_SIZE, etag := "e1" },
   { part_number := 3, size := MIN_PART_SIZE, etag := "e3" }]

/-- An S3 listing where part 1 (not of maximal number) is undersized. -/
def fx_listing_small : List S3Part :=
  [{ part_number := 1, size := 100, etag := "e1" },
   { part_number := 3, size := MIN_PART_SIZE, etag := "e3" }]

/-- An S3 listing missing part 3. -/
def fx_listing_missing : List S3Part :=
  [{ part_number := 1, size := MIN_PART_SIZE, etag := "e1" }]

/-- The session row after a part registration set it to `"in-progress"`. -/
def fx_up1_in_progress : Upload :=
  { upload_id := "up1", user_id := "minio_user", key := "f.bin", status := STATUS_IN_PROGRESS }

/-- The store after registering part 1 against `fx_db_initiated`. -/
def fx_db_after_part1 : DB :=
  { uploads := [fx_up1_in_progress], parts := [part_row fx_req_part1] }

/-- The store after registering part 1 a second time with the same tag. -/
def fx_db_after_dup : DB :=
  { uploads := [fx_up1_in_progress],
    parts := [part_row fx_req_part1, part_row fx_req_part1] }

/-- The store after registering part 1 again with a differing tag. -/
def fx_db_after_conflict : DB :=
  { uploads := [fx_up1_in_progress],
    parts := [part_row fx_req_part1, part_row fx_req_part1_other] }

/-- The store after registering a part against the Completed session of
`fx_db_completed`: its status has regressed to `"in-progress"`. -/
def fx_db_completed_back : DB :=
  { uploads := [fx_up1_in_progress], parts := [part_row fx_req_part1] }

/-- `fx_db_gap` after a successful completion: status `"completed"`, parts
still numbered 1 and 3. -/
def fx_db_gap_completed : DB :=
  { uploads := [fx_completed_upload], parts := fx_db_gap.parts }

/-! ## Helper lemmas -/

/-- The status-only row update of `upload_part`/`complete_upload` does not
change the fields `matches_upload` inspects. -/
theorem matches_upload_set_status (i k uid uid0 s : String) (u : Upload) :
    matches_upload i k uid
        (if u.upload_id == uid0 then { u with status := s } else u)
      = matches_upload i k uid u := by
  by_cases h : u.upload_id == uid0 <;> simp [h, matches_upload]

/-- Filtering by `matches_upload` commutes with the status-only row
update. -/
theorem filter_matches_map_set_status (i k uid uid0 s : String) (l : List Upload) :
    (l.map (fun u => if u.upload_id == uid0 then { u with status := s } else u)).filter
        (matches_upload i k uid)
      = (l.filter (matches_upload i k uid)).map
          (fun u => if u.upload_id == uid0 then { u with status := s } else u) := by
  induction l with
  | nil => rfl
  | cons u l ih =>
      by_cases h : matches_upload i k uid u
      · simp only [List.map_cons, List.filter_cons,
          matches_upload_set_status, h, ih, if_true, List.map_cons]
      · simp only [List.map_cons, List.filter_cons,
          matches_upload_set_status, h, ih, if_false, Bool.false_eq_true]

/-- Anatomy of a successful `upload_part` call: the session lookup matched
exactly one row, the response is `{success: True}`, and the new state has the
fresh `Part` row appended and the matched session's status row set to
`"in-progress"`. -/
theorem upload_part_ok (db : DB) (request : UploadPartRequest) (db1 : DB)
    (r : UploadPartResponse) (h : upload_part db request = .ok (db1, r)) :
    ∃ u, db.uploads.filter
          (matches_upload request.upload_id request.key request.user_id) = [u]
      ∧ r = { success := true }
      ∧ db1 = { uploads := db.uploads.map (fun v =>
                  if v.upload_id == u.upload_id then
                    { v with status := STATUS_IN_PROGRESS } else v),
                parts := db.parts ++ [part_row request] } := by
  rcases hl : db.uploads.filter
      (matches_upload request.upload_id request.key request.user_id) with _ | ⟨u, rest⟩
  · simp [upload_part, scalar_one_or_none, hl] at h
  · rcases rest with _ | ⟨v, rest⟩
    · refine ⟨u, rfl, ?_, ?_⟩
      · simp only [upload_part, scalar_one_or_none, hl] at h
        exact ((Prod.mk.injEq _ _ _ _).mp (Except.ok.inj h)).2.symm
      · simp only [upload_part, scalar_one_or_none, hl] at h
        exact ((Prod.mk.injEq _ _ _ _).mp (Except.ok.inj h)).1.symm
    · simp [upload_part, scalar_one_or_none, hl] at h

/-! ## C1 -/

/-- C1 (code bug): the session resolver is claimed to select resumable
sessions only among status Initiated/InProgress, but `get_uploads` drops its
status filter (the `stmt.where(...)` result is never assigned), so a store
holding one Completed session for the key returns that session to the
status-filtered query, and the client resolver picks it up for resumption. -/
theorem get_uploads_returns_completed_session :
    get_uploads fx_db_completed "f.bin" (some [STATUS_INITIATED, STATUS_IN_PROGRESS])
        = [fx_completed_upload]
    ∧ fx_completed_upload.status = STATUS_COMPLETED
    ∧ (get_existing_or_start_upload fx_db_completed "f.bin" fx_fresh_upload).1
        = fx_completed_upload := by
  exact ⟨rfl, rfl, rfl⟩

/-! ## C4 -/

/-- C4 (code bug): a batched resumed run over a 3-chunk file with
`last_part_number = 2` creates one upload task — the chunk at logical
position 3 — but registers it under part number 1 (`start_offset` is
`batch_idx`, not `batch_idx + last_part_number`), so the recorded part number
is the chunk's position in the response list, not its logical file
position. -/
theorem upload_batched_resume_misnumbers_parts :
    upload_batched_assignments [10, 20, 30] 1 2 10 = [(1, 3)]
    ∧ upload_simple_assignments [10, 20, 30] 1 2 = [(3, 3)] := by
  constructor
  · simp [upload_batched_assignments, batch_starts, ceil_div, registration_assignments,
      upload_chunks_tasks, upload_chunks_reads, read_chunks, read_chunks_seek_position,
      read_chunks_loop, List.range_succ]
  · simp [upload_simple_assignments, registration_assignments,
      upload_chunks_tasks, upload_chunks_reads, read_chunks, read_chunks_seek_position,
      read_chunks_loop, List.range_succ]

/-! ## C2 -/

/-- C2 counterexample: registering the same `(sessionId, partNumber,
integrityTag)` twice does succeed both times, but afterwards TWO persisted
`Part` rows exist for that `(sessionId, partNumber)` — not exactly one as
claimed (`upload_part` inserts unconditionally; there is no duplicate check
and no uniqueness constraint). -/
theorem register_same_part_twice_duplicates_record :
    upload_part fx_db_initiated fx_req_part1
        = .ok (fx_db_after_part1, { success := true })
    ∧ upload_part fx_db_after_part1 fx_req_part1
        = .ok (fx_db_after_dup, { success := true })
    ∧ fx_db_after_dup.parts.countP
        (fun p => p.upload_id == fx_req_part1.upload_id
          && p.part_number == fx_req_part1.part_number) = 2 := by
  exact ⟨rfl, rfl, rfl⟩

/-- C2 amended: registering the same `(sessionId, partNumber, integrityTag)`
twice succeeds both times, and after both calls the store holds two more
`Part` rows for that `(sessionId, partNumber)` than before (in particular
two rows when none existed), because `upload_part` never deduplicates. -/
theorem register_same_part_twice_succeeds_two_records
    (db : DB) (request : UploadPartRequest) (db1 : DB) (r1 : UploadPartResponse)
    (h : upload_part db request = .ok (db1, r1)) :
    ∃ db2 r2, upload_part db1 request = .ok (db2, r2)
      ∧ r1.success = true ∧ r2.success = true
      ∧ db2.parts.countP
            (fun p => p.upload_id == request.upload_id
              && p.part_number == request.part_number)
          = db.parts.countP
              (fun p => p.upload_id == request.upload_id
                && p.part_number == request.part_number) + 2 := by
  obtain ⟨u, hl, hr, hdb1⟩ := upload_part_ok db request db1 r1 h
  have hl2 : db1.uploads.filter
      (matches_upload request.upload_id request.key request.user_id)
      = [{ u with status := STATUS_IN_PROGRESS }] := by
    rw [hdb1]
    simp only [filter_matches_map_set_status, hl, List.map_cons, List.map_nil,
      beq_self_eq_true, if_true]
  refine ⟨{ uploads := db1.uploads.map (fun v =>
              if v.upload_id == u.upload_id then
                { v with status := STATUS_IN_PROGRESS } else v),
            parts := db1.parts ++ [part_row request] },
          { success := true }, ?_, ?_, rfl, ?_⟩
  · simp only [upload_part, hl2, scalar_one_or_none]
  · simp [hr]
  · have hrow : (fun p : Part => p.upload_id == request.upload_id
        && p.part_number == request.part_number) (part_row request) = true := by
      simp [part_row]
    rw [hdb1]
    simp [List.countP_append, hrow]

/-- C2 witness. -/
theorem register_same_part_twice_succeeds_two_records_witness :
    (upload_part fx_db_initiated fx_req_part1
        = .ok (fx_db_after_part1, { success := true }))
    ∧ (∃ db2 r2, upload_part fx_db_after_part1 fx_req_part1 = .ok (db2, r2)
        ∧ ({ success := true } : UploadPartResponse).success = true ∧ r2.success = true
        ∧ db2.parts.countP
              (fun p => p.upload_id == fx_req_part1.upload_id
                && p.part_number == fx_req_part1.part_number)
            = fx_db_initiated.parts.countP
                (fun p => p.upload_id == fx_req_part1.upload_id
                  && p.part_number == fx_req_part1.part_number) + 2) :=
  ⟨rfl,
   register_same_part_twice_succeeds_two_records fx_db_initiated fx_req_part1
     fx_db_after_part1 { success := true } rfl⟩

/-! ## C3 -/

/-- C3 counterexample: registering part 1 with tag `"e1"` and then again
with the differing tag `"e1-other"` raises no conflict error at all — both
calls return `{success: True}` and the store ends with both rows. -/
theorem register_conflicting_tag_no_error :
    upload_part fx_db_initiated fx_req_part1
        = .ok (fx_db_after_part1, { success := true })
    ∧ upload_part fx_db_after_part1 fx_req_part1_other
        = .ok (fx_db_after_conflict, { success := true })
    ∧ fx_db_after_conflict.parts
        = [part_row fx_req_part1, part_row fx_req_part1_other]
    ∧ (part_row fx_req_part1).etag ≠ (part_row fx_req_part1_other).etag := by
  exact ⟨rfl, rfl, rfl, by decide⟩

/-- C3 amended: registering a differing integrity tag for an
already-registered part number does not fail: the call succeeds and appends
a second `Part` row carrying the new tag, while the originally stored row is
left unchanged in the store. -/
theorem register_conflicting_tag_appends_record
    (db : DB) (req1 : UploadPartRequest) (db1 : DB) (r1 : UploadPartResponse)
    (h : upload_part db req1 = .ok (db1, r1))
    (req2 : UploadPartRequest)
    (hid : req2.upload_id = req1.upload_id) (hk : req2.key = req1.key)
    (hu : req2.user_id = req1.user_id) (_hn : req2.part_number = req1.part_number)
    (he : req2.etag ≠ req1.etag) :
    ∃ db2 r2, upload_part db1 req2 = .ok (db2, r2)
      ∧ r2.success = true
      ∧ db2.parts = db.parts ++ [part_row req1] ++ [part_row req2]
      ∧ part_row req2 ≠ part_row req1 := by
  obtain ⟨u, hl, hr, hdb1⟩ := upload_part_ok db req1 db1 r1 h
  have hl2 : db1.uploads.filter
      (matches_upload req2.upload_id req2.key req2.user_id)
      = [{ u with status := STATUS_IN_PROGRESS }] := by
    rw [hdb1, hid, hk, hu]
    simp only [filter_matches_map_set_status, hl, List.map_cons, List.map_nil,
      beq_self_eq_true, if_true]
  refine ⟨{ uploads := db1.uploads.map (fun v =>
              if v.upload_id == u.upload_id then
                { v with status := STATUS_IN_PROGRESS } else v),
            parts := db1.parts ++ [part_row req2] },
          { success := true }, ?_, rfl, ?_, ?_⟩
  · simp only [upload_part, hl2, scalar_one_or_none]
  · rw [hdb1]
  · intro heq
    exact he (congrArg Part.etag heq)

/-- C3 witness. -/
theorem register_conflicting_tag_appends_record_witness :
    (upload_part fx_db_initiated fx_req_part1
        = .ok (fx_db_after_part1, { success := true }))
    ∧ (fx_req_part1_other.etag ≠ fx_req_part1.etag)
    ∧ (∃ db2 r2, upload_part fx_db_after_part1 fx_req_part1_other = .ok (db2, r2)
        ∧ r2.success = true
        ∧ db2.parts = fx_db_initiated.parts ++ [part_row fx_req_part1]
            ++ [part_row fx_req_part1_other]
        ∧ part_row fx_req_part1_other ≠ part_row fx_req_part1) :=
  ⟨rfl, by decide,
   register_conflicting_tag_appends_record fx_db_initiated fx_req_part1
     fx_db_after_part1 { success := true } rfl fx_req_part1_other
     rfl rfl rfl rfl (by decide)⟩

/-! ## C5 -/

/-- C5 counterexample: registering a part against a session whose status is
`"completed"` sets the status back to `"in-progress"` — `upload_part`
assigns the status unconditionally, so the Initiated → InProgress →
Completed progression is not monotonic. -/
theorem register_part_on_completed_session_regresses_status :
    fx_completed_upload.status = STATUS_COMPLETED
    ∧ upload_part fx_db_completed fx_req_part1
        = .ok (fx_db_completed_back, { success := true })
    ∧ fx_db_completed_back.uploads = [fx_up1_in_progress]
    ∧ fx_up1_in_progress.status = STATUS_IN_PROGRESS
    ∧ STATUS_IN_PROGRESS ≠ STATUS_COMPLETED := by
  exact ⟨rfl, rfl, rfl, rfl, by decide⟩

/-- C5 amended: every successful part registration leaves the addressed
session row with status `"in-progress"`, whatever its previous status was —
in particular a Completed session is moved back to InProgress, so only the
Initiated → InProgress step of the claimed monotonic progression is enforced
by `upload_part`. -/
theorem upload_part_always_sets_in_progress
    (db : DB) (request : UploadPartRequest) (db1 : DB) (r : UploadPartResponse)
    (h : upload_part db request = .ok (db1, r)) :
    ∀ u ∈ db1.uploads, u.upload_id = request.upload_id →
      u.status = STATUS_IN_PROGRESS := by
  obtain ⟨u0, hl, hr, hdb1⟩ := upload_part_ok db request db1 r h
  have hu0mem : u0 ∈ db.uploads.filter
      (matches_upload request.upload_id request.key request.user_id) := by
    rw [hl]; exact List.mem_singleton.mpr rfl
  have hu0 : u0.upload_id = request.upload_id := by
    have hm := List.of_mem_filter hu0mem
    simp [matches_upload] at hm
    exact hm.1.1
  subst hdb1
  intro v hv hvid
  obtain ⟨w, hw, rfl⟩ := List.mem_map.mp hv
  by_cases hcase : w.upload_id == u0.upload_id
  · simp [hcase]
  · exfalso
    simp only [hcase, if_neg, Bool.false_eq_true, if_false] at hvid
    exact hcase (by rw [hvid, hu0]; exact beq_self_eq_true _)

/-- C5 witness. -/
theorem upload_part_always_sets_in_progress_witness :
    (upload_part fx_db_initiated fx_req_part1
        = .ok (fx_db_after_part1, { success := true }))
    ∧ fx_up1_in_progress ∈ fx_db_after_part1.uploads
    ∧ fx_up1_in_progress.upload_id = fx_req_part1.upload_id
    ∧ fx_up1_in_progress.status = STATUS_IN_PROGRESS :=
  ⟨rfl, by simp [fx_db_after_part1], rfl,
   upload_part_always_sets_in_progress fx_db_initiated fx_req_part1
     fx_db_after_part1 { success := true } rfl
     fx_up1_in_progress (by simp [fx_db_after_part1]) rfl⟩

/-! ## C10 -/

/-- Helper: the only `return` of the `upload_part` handler carries
`success = True`. -/
theorem upload_part_ok_success (db : DB) (request : UploadPartRequest)
    (out : DB × UploadPartResponse) (h : upload_part db request = .ok out) :
    out.2.success = true := by
  obtain ⟨db1, r⟩ := out
  obtain ⟨u, hl, hr, hdb⟩ := upload_part_ok db request db1 r h
  rw [hr]

/-- Helper: the registration loop can fail by a missing `ETag` header or a
propagated server error, but never through its `success`-flag check. -/
theorem register_parts_loop_never_registrationFailed
    (responses : List UploadHttpResponse) :
    ∀ (db : DB) (user_id upload_id key : String) (idx n : Nat),
      register_parts_loop user_id upload_id key db responses idx
        ≠ .error (.registrationFailed n) := by
  induction responses with
  | nil =>
      intro db user_id upload_id key idx n h
      simp [register_parts_loop] at h
  | cons r rest ih =>
      intro db user_id upload_id key idx n h
      cases he : r.etag with
      | none => simp [register_parts_loop, he] at h
      | some tag =>
          cases hcall : upload_part db
              { upload_id := upload_id, key := key, part_number := idx,
                etag := tag, user_id := user_id } with
          | error e => simp [register_parts_loop, he, hcall] at h
          | ok out =>
              obtain ⟨db1, resp⟩ := out
              have hs : resp.success = true :=
                upload_part_ok_success db _ (db1, resp) hcall
              simp only [register_parts_loop, he, hcall, hs, if_true] at h
              exact ih db1 user_id upload_id key (idx + 1) n h

/-- C10: whenever the `upload_part` handler returns instead of raising, the
response's `success` field is `True`; consequently the registration loop's
failure branch for a false `success` flag (`ValueError: Error registering
uploaded part`) is unreachable — registration failure surfaces only as a
raised error (missing `ETag` or propagated server error). -/
theorem upload_part_response_success_always_true :
    (∀ (db : DB) (request : UploadPartRequest) (out : DB × UploadPartResponse),
        upload_part db request = .ok out → out.2.success = true)
    ∧ (∀ (db : DB) (user_id upload_id key : String)
        (responses : List UploadHttpResponse) (start_offset n : Nat),
        register_uploaded_parts db user_id upload_id key responses start_offset
          ≠ .error (.registrationFailed n)) := by
  refine ⟨upload_part_ok_success, ?_⟩
  intro db user_id upload_id key responses start_offset n
  exact register_parts_loop_never_registrationFailed responses db
    user_id upload_id key (start_offset + 1) n

/-- C10 witness. -/
theorem upload_part_response_success_always_true_witness :
    (upload_part fx_db_initiated fx_req_part1
        = .ok (fx_db_after_part1, { success := true }))
    ∧ ((fx_db_after_part1, ({ success := true } : UploadPartResponse)).2.success
        = true) :=
  ⟨rfl,
   upload_part_response_success_always_true.1 fx_db_initiated fx_req_part1
     (fx_db_after_part1, { success := true }) rfl⟩

/-! ## Reader lemmas -/

/-- With a positive chunk size and no batch bound, the chunks of the read
loop concatenate back to the byte stream it was started on. -/
theorem read_chunks_loop_none_join (chunk_size : Nat) (hcs : 0 < chunk_size) :
    ∀ (rest : FileBytes) (batch_size : Option Nat), batch_size = none →
      (read_chunks_loop chunk_size rest batch_size).flatten = rest := by
  intro rest batch_size
  induction rest, batch_size using read_chunks_loop.induct chunk_size with
  | case1 rest => intro h; simp at h
  | case2 rest batch_size h1 h2 =>
      intro hb
      have hrest : rest = [] := by
        rcases List.take_eq_nil_iff.mp h2 with h | h
        · omega
        · exact h
      subst hrest
      simp [read_chunks_loop]
  | case3 rest batch_size h1 h2 ih =>
      intro hb
      subst hb
      rw [read_chunks_loop]
      simp only [if_neg h1, dif_neg h2, List.flatten_cons, Option.map_none']
      have ih' := ih rfl
      simp only [Option.map_none'] at ih'
      rw [ih', List.take_append_drop]

/-- With a positive chunk size and no batch bound, the read loop yields
exactly `ceil(length / chunk_size)` chunks. -/
theorem read_chunks_loop_none_length (chunk_size : Nat) (hcs : 0 < chunk_size) :
    ∀ (rest : FileBytes) (batch_size : Option Nat), batch_size = none →
      (read_chunks_loop chunk_size rest batch_size).length
        = ceil_div rest.length chunk_size := by
  intro rest batch_size
  induction rest, batch_size using read_chunks_loop.induct chunk_size with
  | case1 rest => intro h; simp at h
  | case2 rest batch_size h1 h2 =>
      intro hb
      have hrest : rest = [] := by
        rcases List.take_eq_nil_iff.mp h2 with h | h
        · omega
        · exact h
      subst hrest
      rw [read_chunks_loop]
      simp only [if_neg (hb ▸ (by simp : (none : Option Nat) ≠ some 0)), dif_pos rfl]
      simp [ceil_div, Nat.div_eq_of_lt (by omega : chunk_size - 1 < chunk_size)]
  | case3 rest batch_size h1 h2 ih =>
      intro hb
      subst hb
      have hrest : rest ≠ [] := by
        intro h
        exact h2 (by simp [h])
      have hL : 0 < rest.length := List.length_pos.mpr hrest
      rw [read_chunks_loop]
      simp only [if_neg h1, dif_neg h2, List.length_cons, Option.map_none']
      have ih' := ih rfl
      simp only [Option.map_none'] at ih'
      rw [ih']
      simp only [List.length_drop, ceil_div]
      rcases le_or_lt rest.length chunk_size with hle | hlt
      · have hz : rest.length - chunk_size = 0 := by omega
        rw [hz]
        rw [Nat.div_eq_of_lt (by omega : 0 + chunk_size - 1 < chunk_size)]
        have h1eq : rest.length + chunk_size - 1 = (rest.length - 1) + chunk_size := by omega
        rw [h1eq, Nat.add_div_right _ hcs,
          Nat.div_eq_of_lt (by omega : rest.length - 1 < chunk_size)]
      · have h1eq : rest.length + chunk_size - 1 = (rest.length - 1) + chunk_size := by omega
        have h2eq : rest.length - chunk_size + chunk_size - 1
            = (rest.length - chunk_size - 1) + chunk_size := by omega
        rw [h1eq, h2eq, Nat.add_div_right _ hcs, Nat.add_div_right _ hcs]
        have h3eq : rest.length - 1 = (rest.length - chunk_size - 1) + chunk_size := by
          omega
        rw [h3eq, Nat.add_div_right _ hcs]

/-- Every chunk the read loop yields has at most `chunk_size` bytes. -/
theorem read_chunks_loop_mem_length_le (chunk_size : Nat) :
    ∀ (rest : FileBytes) (batch_size : Option Nat),
      ∀ c ∈ read_chunks_loop chunk_size rest batch_size, c.length ≤ chunk_size := by
  intro rest batch_size
  induction rest, batch_size using read_chunks_loop.induct chunk_size with
  | case1 rest =>
      intro c hc
      rw [read_chunks_loop] at hc
      simp at hc
  | case2 rest batch_size h1 h2 =>
      intro c hc
      rw [read_chunks_loop] at hc
      simp only [if_neg h1, dif_pos h2] at hc
      simp at hc
  | case3 rest batch_size h1 h2 ih =>
      intro c hc
      rw [read_chunks_loop] at hc
      simp only [if_neg h1, dif_neg h2, List.mem_cons] at hc
      rcases hc with rfl | hc
      · simp [List.length_take]
      · exact ih c hc

/-- With a positive chunk size and no batch bound, every chunk but the last
has exactly `chunk_size` bytes. -/
theorem read_chunks_loop_none_dropLast (chunk_size : Nat) :
    ∀ (rest : FileBytes) (batch_size : Option Nat), batch_size = none →
      ∀ c ∈ (read_chunks_loop chunk_size rest batch_size).dropLast,
        c.length = chunk_size := by
  intro rest batch_size
  induction rest, batch_size using read_chunks_loop.induct chunk_size with
  | case1 rest => intro h; simp at h
  | case2 rest batch_size h1 h2 =>
      intro hb c hc
      rw [read_chunks_loop] at hc
      simp only [if_neg h1, dif_pos h2] at hc
      simp at hc
  | case3 rest batch_size h1 h2 ih =>
      intro hb c hc
      subst hb
      rw [read_chunks_loop] at hc
      simp only [if_neg h1, dif_neg h2, Option.map_none'] at hc
      rcases htail : read_chunks_loop chunk_size (rest.drop chunk_size) none with
          _ | ⟨t, ts⟩
      · rw [htail] at hc
        simp at hc
      · rw [htail] at hc
        rw [List.dropLast_cons_of_ne_nil (by simp)] at hc
        rcases List.mem_cons.mp hc with rfl | hc
        · have hdrop : rest.drop chunk_size ≠ [] := by
            intro hd
            have : read_chunks_loop chunk_size (rest.drop chunk_size) none = [] := by
              rw [read_chunks_loop]
              simp [hd]
            rw [this] at htail
            exact List.noConfusion htail
          have hlen : chunk_size < rest.length := by
            have := List.length_drop chunk_size rest
            have hpos : 0 < (rest.drop chunk_size).length :=
              List.length_pos.mpr hdrop
            omega
          simp [List.length_take]
          omega
        · exact ih rfl c (htail ▸ hc)

/-! ## C8 -/

/-- C8: for a nonempty file and positive chunk size, `read_chunks` started
at offset 0 with no batch bound yields exactly `ceil(S/C)` chunks (at least
one), their concatenation is exactly the file's byte stream, every chunk
except the last has exactly `chunk_size` bytes, and no chunk exceeds
`chunk_size` (so only the last may be shorter). -/
theorem read_chunks_reconstructs_file (file : FileBytes) (chunk_size : Nat)
    (hcs : 0 < chunk_size) (hfile : 0 < file.length) :
    (read_chunks file chunk_size 0 none).length = ceil_div file.length chunk_size
    ∧ (read_chunks file chunk_size 0 none).flatten = file
    ∧ (∀ c ∈ (read_chunks file chunk_size 0 none).dropLast, c.length = chunk_size)
    ∧ (∀ c ∈ read_chunks file chunk_size 0 none, c.length ≤ chunk_size)
    ∧ read_chunks file chunk_size 0 none ≠ [] := by
  have hread : read_chunks file chunk_size 0 none
      = read_chunks_loop chunk_size file none := by
    simp [read_chunks, read_chunks_seek_position]
  rw [hread]
  refine ⟨read_chunks_loop_none_length chunk_size hcs file none rfl,
    read_chunks_loop_none_join chunk_size hcs file none rfl,
    read_chunks_loop_none_dropLast chunk_size file none rfl,
    read_chunks_loop_mem_length_le chunk_size file none, ?_⟩
  intro hnil
  have hj := read_chunks_loop_none_join chunk_size hcs file none rfl
  rw [hnil] at hj
  simp only [List.flatten_nil] at hj
  rw [← hj] at hfile
  simp at hfile

/-- C8 witness. -/
theorem read_chunks_reconstructs_file_witness :
    ((0 : Nat) < 2 ∧ (0 : Nat) < ([1, 2, 3] : FileBytes).length)
    ∧ ((read_chunks [1, 2, 3] 2 0 none).length = ceil_div ([1, 2, 3] : FileBytes).length 2
      ∧ (read_chunks [1, 2, 3] 2 0 none).flatten = [1, 2, 3]
      ∧ (∀ c ∈ (read_chunks [1, 2, 3] 2 0 none).dropLast, c.length = 2)
      ∧ (∀ c ∈ read_chunks [1, 2, 3] 2 0 none, c.length ≤ 2)
      ∧ read_chunks [1, 2, 3] 2 0 none ≠ []) :=
  ⟨⟨by decide, by decide⟩, read_chunks_reconstructs_file [1, 2, 3] 2 (by decide) (by decide)⟩

/-! ## C9 -/

/-- C9 counterexample: a simple-mode resumed run with `last_part_number = 1`
over the 2-part file `[1,2,3]` (chunk size 2) seeks to byte 0 — not to
`(startPartNumber - 1) * chunkSize = 2` — and its read trace contains
`[1,2]`, the bytes of already-registered part 1; the skipped part is only
excluded from the upload tasks, after having been read. -/
theorem upload_chunks_rereads_skipped_parts :
    read_chunks_seek_position 0 2 = 0
    ∧ (0 : Nat) ≠ (2 - 1) * 2
    ∧ upload_chunks_reads [1, 2, 3] 2 0 none = [[1, 2], [3]]
    ∧ [1, 2] ∈ upload_chunks_reads [1, 2, 3] 2 0 none
    ∧ upload_chunks_tasks [1, 2, 3] 2 1 0 none = [{ part_idx := 2, chunk := [3] }] := by
  refine ⟨rfl, by decide, ?_, ?_, ?_⟩
  · simp [upload_chunks_reads, read_chunks, read_chunks_seek_position, read_chunks_loop]
  · simp [upload_chunks_reads, read_chunks, read_chunks_seek_position, read_chunks_loop]
  · simp [upload_chunks_tasks, upload_chunks_reads, read_chunks,
      read_chunks_seek_position, read_chunks_loop, List.range_succ]

/-- C9 amended: resumption never re-uploads parts `1..r` — every task
`upload_chunks` creates has a part index strictly above `last_part_number` —
but the reader is not seeked past them: it seeks to
`batch_idx * chunk_size` (byte 0 in simple mode, where the whole file is
read back, skipped parts included) rather than to
`last_part_number * chunk_size`. -/
theorem upload_chunks_skips_upload_but_rereads
    (file : FileBytes) (chunk_size last_part_number : Nat) (hcs : 0 < chunk_size) :
    (∀ (batch_idx : Nat) (batch_size : Option Nat),
        (upload_chunks_tasks file chunk_size last_part_number batch_idx batch_size).all
          (fun t => decide (last_part_number < t.part_idx)) = true)
    ∧ (upload_chunks_reads file chunk_size 0 none).flatten = file := by
  constructor
  · intro batch_idx batch_size
    rw [List.all_eq_true]
    intro t ht
    have := List.of_mem_filter ht
    simp only [Bool.not_eq_true', decide_eq_false_iff_not, Nat.not_le] at this
    simpa using this
  · have hread : upload_chunks_reads file chunk_size 0 none
        = read_chunks_loop chunk_size file none := by
      simp [upload_chunks_reads, read_chunks, read_chunks_seek_position]
    rw [hread]
    exact read_chunks_loop_none_join chunk_size hcs file none rfl

/-- C9 witness. -/
theorem upload_chunks_skips_upload_but_rereads_witness :
    ((0 : Nat) < 2)
    ∧ ((∀ (batch_idx : Nat) (batch_size : Option Nat),
          (upload_chunks_tasks [1, 2, 3] 2 1 batch_idx batch_size).all
            (fun t => decide (1 < t.part_idx)) = true)
      ∧ (upload_chunks_reads [1, 2, 3] 2 0 none).flatten = [1, 2, 3]) :=
  ⟨by decide, upload_chunks_skips_upload_but_rereads [1, 2, 3] 2 1 (by decide)⟩

/-! ## Completion lemmas -/

/-- Membership is preserved by the stable insertion step. -/
theorem mem_insert_by_part_number {a p : Part} {l : List Part} :
    a ∈ insert_by_part_number p l ↔ a = p ∨ a ∈ l := by
  induction l with
  | nil => simp [insert_by_part_number]
  | cons q rest ih =>
      simp only [insert_by_part_number]
      by_cases h : p.part_number < q.part_number
      · simp [h]
      · simp only [h, if_false, List.mem_cons, ih]
        tauto

/-- Sorting by part number preserves membership. -/
theorem mem_sorted_by_part_number {a : Part} {l : List Part} :
    a ∈ sorted_by_part_number l ↔ a ∈ l := by
  induction l with
  | nil => simp [sorted_by_part_number]
  | cons p rest ih =>
      simp [sorted_by_part_number, mem_insert_by_part_number, ih]

/-- The validation loop passes exactly when every local part appears in the
S3 listing and is either the part of maximal number or large enough. -/
theorem validate_parts_eq_none_iff (mx : Nat) (listing : List S3Part)
    (l : List Part) :
    validate_parts mx listing l = none ↔
      ∀ p ∈ l, ∃ sp, s3_parts_lookup listing p.part_number = some sp
        ∧ (p.part_number = mx ∨ MIN_PART_SIZE ≤ sp.size) := by
  induction l with
  | nil => simp [validate_parts]
  | cons p rest ih =>
      cases hlk : s3_parts_lookup listing p.part_number with
      | none =>
          apply iff_of_false
          · simp [validate_parts, hlk]
          · intro hall
            obtain ⟨sp, hsp, _⟩ := hall p (List.mem_cons_self p rest)
            rw [hlk] at hsp
            exact Option.noConfusion hsp
      | some sp =>
          by_cases hcond : sp.size < MIN_PART_SIZE ∧ p.part_number ≠ mx
          · apply iff_of_false
            · simp [validate_parts, hlk, hcond.1, hcond.2]
            · intro hall
              obtain ⟨sp2, hsp2, hdisj⟩ := hall p (List.mem_cons_self p rest)
              rw [hlk] at hsp2
              obtain rfl : sp = sp2 := Option.some.inj hsp2
              rcases hdisj with h | h
              · exact hcond.2 h
              · omega
          · have hred : validate_parts mx listing (p :: rest)
                = validate_parts mx listing rest := by
              simp only [validate_parts, hlk]
              rw [if_neg]
              intro hb
              rcases Bool.and_eq_true_iff.mp hb with ⟨hb1, hb2⟩
              exact hcond ⟨of_decide_eq_true hb1, by simpa using hb2⟩
            rw [hred, ih]
            constructor
            · intro hall q hq
              rcases List.mem_cons.mp hq with rfl | hq
              · refine ⟨sp, hlk, ?_⟩
                by_cases hmx : q.part_number = mx
                · exact Or.inl hmx
                · exact Or.inr (Nat.le_of_not_lt (fun hs => hcond ⟨hs, hmx⟩))
              · exact hall q hq
            · intro hall q hq
              exact hall q (List.mem_cons_of_mem p hq)

/-- A validation failure is either a missing-upstream failure or an
undersized non-maximal part, for a part of the list. -/
theorem validate_parts_eq_some (mx : Nat) (listing : List S3Part)
    (l : List Part) (e : CompleteError)
    (h : validate_parts mx listing l = some e) :
    (∃ p ∈ l, e = .partNotFoundUpstream p.part_number
      ∧ s3_parts_lookup listing p.part_number = none)
    ∨ (∃ p ∈ l, ∃ sp, e = .partTooSmall p.part_number sp.size
      ∧ s3_parts_lookup listing p.part_number = some sp
      ∧ sp.size < MIN_PART_SIZE ∧ p.part_number ≠ mx) := by
  induction l with
  | nil => simp [validate_parts] at h
  | cons p rest ih =>
      cases hlk : s3_parts_lookup listing p.part_number with
      | none =>
          left
          refine ⟨p, List.mem_cons_self p rest, ?_, hlk⟩
          simp only [validate_parts, hlk] at h
          exact (Option.some.inj h).symm
      | some sp =>
          by_cases hcond : sp.size < MIN_PART_SIZE ∧ p.part_number ≠ mx
          · right
            refine ⟨p, List.mem_cons_self p rest, sp, ?_, hlk, hcond.1, hcond.2⟩
            simp only [validate_parts, hlk] at h
            rw [if_pos] at h
            · exact (Option.some.inj h).symm
            · exact Bool.and_eq_true_iff.mpr
                ⟨decide_eq_true hcond.1, by simpa using hcond.2⟩
          · have hred : validate_parts mx listing (p :: rest)
                = validate_parts mx listing rest := by
              simp only [validate_parts, hlk]
              rw [if_neg]
              intro hb
              rcases Bool.and_eq_true_iff.mp hb with ⟨hb1, hb2⟩
              exact hcond ⟨of_decide_eq_true hb1, by simpa using hb2⟩
            rw [hred] at h
            rcases ih h with ⟨q, hq, he⟩ | ⟨q, hq, sp2, he⟩
            · exact Or.inl ⟨q, List.mem_cons_of_mem p hq, he⟩
            · exact Or.inr ⟨q, List.mem_cons_of_mem p hq, sp2, he⟩

/-- Reduction of `complete_upload` once the session lookup matched exactly
one row. -/
theorem complete_upload_found (db : DB) (request : CompleteUploadRequest)
    (listing : List S3Part) (assemble_ok : Bool) (location : String)
    (upload : Upload)
    (hfind : db.uploads.filter
        (matches_upload request.upload_id request.key request.user_id) = [upload]) :
    complete_upload db request listing assemble_ok location
      = match validate_parts
            (max_part_number (sorted_by_part_number
              (db.parts.filter (fun p => p.upload_id == upload.upload_id))))
            listing
            (sorted_by_part_number
              (db.parts.filter (fun p => p.upload_id == upload.upload_id))) with
        | some e => (db, .error e, true)
        | none =>
            if assemble_ok then
              ({ db with uploads := db.uploads.map (fun u =>
                   if u.upload_id == upload.upload_id then
                     { u with status := STATUS_COMPLETED } else u) },
               .ok { message := "Upload completed successfully",
                     location := location, key := request.key },
               false)
            else (db, .error .assembleFailed, true) := by
  simp only [complete_upload, hfind, scalar_one_or_none]

/-! ## C6 -/

/-- C6 counterexample: a session owning only parts 1 and 3 (gap at 2), with
both parts present upstream and large enough, completes successfully and
reaches status `"completed"` — so a Completed session's part-number set need
not be the contiguous run `1..N` (here `N = 3` but `2` is missing);
`complete_upload` never checks contiguity. -/
theorem complete_upload_accepts_gap_in_part_numbers :
    complete_upload fx_db_gap fx_complete_req fx_listing_gap true "loc"
        = (fx_db_gap_completed,
           .ok { message := "Upload completed successfully",
                 location := "loc", key := "f.bin" },
           false)
    ∧ fx_db_gap_completed.uploads = [fx_completed_upload]
    ∧ fx_completed_upload.status = STATUS_COMPLETED
    ∧ fx_db_gap_completed.parts.map Part.part_number = [1, 3]
    ∧ max_part_number (sorted_by_part_number fx_db_gap_completed.parts) = 3
    ∧ 2 ∉ fx_db_gap_completed.parts.map Part.part_number := by
  refine ⟨rfl, rfl, rfl, rfl, rfl, by decide⟩

/-- C6 amended: when `complete_upload` succeeds, the session's status row is
set to `"completed"` and every locally registered part except those of
maximal part number has an upstream listing entry of size at least 5 MiB;
the part-number set, however, is NOT guaranteed to be a contiguous run
`1..N` (no gap check exists — see the counterexample). -/
theorem complete_upload_success_enforces_min_size
    (db : DB) (request : CompleteUploadRequest) (listing : List S3Part)
    (assemble_ok : Bool) (location : String) (upload : Upload) (db2 : DB)
    (resp : CompleteUploadResponse) (ab : Bool)
    (hfind : db.uploads.filter
        (matches_upload request.upload_id request.key request.user_id) = [upload])
    (hrun : complete_upload db request listing assemble_ok location
        = (db2, .ok resp, ab)) :
    (∀ u ∈ db2.uploads, u.upload_id = upload.upload_id →
        u.status = STATUS_COMPLETED)
    ∧ (∀ p ∈ db.parts.filter (fun p => p.upload_id == upload.upload_id),
        p.part_number ≠ max_part_number (sorted_by_part_number
          (db.parts.filter (fun p => p.upload_id == upload.upload_id))) →
        ∃ sp, s3_parts_lookup listing p.part_number = some sp
          ∧ MIN_PART_SIZE ≤ sp.size) := by
  rw [complete_upload_found db request listing assemble_ok location upload hfind]
    at hrun
  cases hv : validate_parts
      (max_part_number (sorted_by_part_number
        (db.parts.filter (fun p => p.upload_id == upload.upload_id))))
      listing
      (sorted_by_part_number
        (db.parts.filter (fun p => p.upload_id == upload.upload_id))) with
  | some e =>
      rw [hv] at hrun
      simp [Prod.ext_iff] at hrun
  | none =>
      rw [hv] at hrun
      cases assemble_ok with
      | false => simp [Prod.ext_iff] at hrun
      | true =>
          rw [if_pos rfl] at hrun
          have hdb2 : db2 = { db with uploads := db.uploads.map (fun u =>
              if u.upload_id == upload.upload_id then
                { u with status := STATUS_COMPLETED } else u) } := by
            have := congrArg Prod.fst hrun
            exact this.symm
          constructor
          · intro u hu huid
            rw [hdb2] at hu
            obtain ⟨w, hw, rfl⟩ := List.mem_map.mp hu
            by_cases hcase : w.upload_id == upload.upload_id
            · simp [hcase]
            · exfalso
              simp only [hcase, Bool.false_eq_true, if_false] at huid
              exact hcase (by rw [huid]; exact beq_self_eq_true _)
          · intro p hp hne
            obtain ⟨sp, hsp, hdisj⟩ :=
              (validate_parts_eq_none_iff _ listing _).mp hv p
                (mem_sorted_by_part_number.mpr hp)
            rcases hdisj with h | h
            · exact absurd h hne
            · exact ⟨sp, hsp, h⟩

/-- C6 witness. -/
theorem complete_upload_success_enforces_min_size_witness :
    (fx_db_gap.uploads.filter
        (matches_upload fx_complete_req.upload_id fx_complete_req.key
          fx_complete_req.user_id) = [fx_up1_in_progress])
    ∧ (complete_upload fx_db_gap fx_complete_req fx_listing_gap true "loc"
        = (fx_db_gap_completed,
           .ok { message := "Upload completed successfully",
                 location := "loc", key := "f.bin" },
           false))
    ∧ ((∀ u ∈ fx_db_gap_completed.uploads,
          u.upload_id = fx_up1_in_progress.upload_id →
          u.status = STATUS_COMPLETED)
      ∧ (∀ p ∈ fx_db_gap.parts.filter
            (fun p => p.upload_id == fx_up1_in_progress.upload_id),
          p.part_number ≠ max_part_number (sorted_by_part_number
            (fx_db_gap.parts.filter
              (fun p => p.upload_id == fx_up1_in_progress.upload_id))) →
          ∃ sp, s3_parts_lookup fx_listing_gap p.part_number = some sp
            ∧ MIN_PART_SIZE ≤ sp.size)) :=
  ⟨rfl, rfl,
   complete_upload_success_enforces_min_size fx_db_gap fx_complete_req
     fx_listing_gap true "loc" fx_up1_in_progress fx_db_gap_completed
     { message := "Upload completed successfully", location := "loc", key := "f.bin" }
     false rfl rfl⟩

/-! ## C7 -/

/-- C7: when the session lookup matches and some locally registered part is
missing from the S3 listing, or some part that is present and not of maximal
number is smaller than 5 MiB, `complete_upload` fails with one of the two
validation errors (`Part ... not found in S3` / `Part ... is too small`),
requests the upstream abort, re-raises that error, and leaves the database —
in particular the session's status — unchanged.  If every part is present
upstream the error is the too-small one; if no present non-maximal part is
undersized the error is the missing-upstream one. -/
theorem complete_upload_validation_failure_aborts
    (db : DB) (request : CompleteUploadRequest) (listing : List S3Part)
    (assemble_ok : Bool) (location : String) (upload : Upload)
    (hfind : db.uploads.filter
        (matches_upload request.upload_id request.key request.user_id) = [upload])
    (hbad :
      (∃ p ∈ db.parts.filter (fun p => p.upload_id == upload.upload_id),
          s3_parts_lookup listing p.part_number = none)
      ∨ (∃ p ∈ db.parts.filter (fun p => p.upload_id == upload.upload_id),
          ∃ sp, s3_parts_lookup listing p.part_number = some sp
            ∧ sp.size < MIN_PART_SIZE
            ∧ p.part_number ≠ max_part_number (sorted_by_part_number
                (db.parts.filter (fun p => p.upload_id == upload.upload_id))))) :
    ∃ e, complete_upload db request listing assemble_ok location
          = (db, .error e, true)
      ∧ ((∃ n, e = .partNotFoundUpstream n) ∨ (∃ n s, e = .partTooSmall n s))
      ∧ ((∀ p ∈ db.parts.filter (fun p => p.upload_id == upload.upload_id),
            (s3_parts_lookup listing p.part_number).isSome) →
          ∃ n s, e = .partTooSmall n s)
      ∧ ((∀ p ∈ db.parts.filter (fun p => p.upload_id == upload.upload_id),
            ∀ sp, s3_parts_lookup listing p.part_number = some sp →
              p.part_number ≠ max_part_number (sorted_by_part_number
                (db.parts.filter (fun p => p.upload_id == upload.upload_id))) →
              MIN_PART_SIZE ≤ sp.size) →
          ∃ n, e = .partNotFoundUpstream n) := by
  have hv : validate_parts
      (max_part_number (sorted_by_part_number
        (db.parts.filter (fun p => p.upload_id == upload.upload_id))))
      listing
      (sorted_by_part_number
        (db.parts.filter (fun p => p.upload_id == upload.upload_id))) ≠ none := by
    intro hvnone
    rw [validate_parts_eq_none_iff] at hvnone
    have hall := hvnone
    rcases hbad with ⟨p, hp, hnone⟩ | ⟨p, hp, sp, hsome, hsize, hmx⟩
    · obtain ⟨sp, hsp, _⟩ := hall p (mem_sorted_by_part_number.mpr hp)
      rw [hnone] at hsp
      exact Option.noConfusion hsp
    · obtain ⟨sp2, hsp2, hdisj⟩ := hall p (mem_sorted_by_part_number.mpr hp)
      rw [hsome] at hsp2
      obtain rfl : sp = sp2 := Option.some.inj hsp2
      rcases hdisj with h | h
      · exact hmx h
      · omega
  cases hv2 : validate_parts
      (max_part_number (sorted_by_part_number
        (db.parts.filter (fun p => p.upload_id == upload.upload_id))))
      listing
      (sorted_by_part_number
        (db.parts.filter (fun p => p.upload_id == upload.upload_id))) with
  | none => exact absurd hv2 hv
  | some e =>
      have hshape := validate_parts_eq_some _ listing _ e hv2
      refine ⟨e, ?_, ?_, ?_, ?_⟩
      · rw [complete_upload_found db request listing assemble_ok location upload hfind,
          hv2]
      · rcases hshape with ⟨p, _, he, _⟩ | ⟨p, _, sp, he, _⟩
        · exact Or.inl ⟨p.part_number, he⟩
        · exact Or.inr ⟨p.part_number, sp.size, he⟩
      · intro hpresent
        rcases hshape with ⟨p, hp, he, hnone⟩ | ⟨p, _, sp, he, _⟩
        · have := hpresent p (mem_sorted_by_part_number.mp hp)
          rw [hnone] at this
          simp at this
        · exact ⟨p.part_number, sp.size, he⟩
      · intro hbig
        rcases hshape with ⟨p, _, he, _⟩ | ⟨p, hp, sp, he, hsome, hsize, hmx⟩
        · exact ⟨p.part_number, he⟩
        · have := hbig p (mem_sorted_by_part_number.mp hp) sp hsome hmx
          omega

/-- C7 witness (undersized non-final part: part 1 has 100 bytes upstream). -/
theorem complete_upload_validation_failure_aborts_witness :
    (fx_db_gap.uploads.filter
        (matches_upload fx_complete_req.upload_id fx_complete_req.key
          fx_complete_req.user_id) = [fx_up1_in_progress])
    ∧ (part_row fx_req_part1 ∈ fx_db_gap.parts.filter
          (fun p => p.upload_id == fx_up1_in_progress.upload_id)
      ∧ s3_parts_lookup fx_listing_small (part_row fx_req_part1).part_number
          = some { part_number := 1, size := 100, etag := "e1" }
      ∧ (100 : Nat) < MIN_PART_SIZE
      ∧ (part_row fx_req_part1).part_number ≠ max_part_number
          (sorted_by_part_number (fx_db_gap.parts.filter
            (fun p => p.upload_id == fx_up1_in_progress.upload_id))))
    ∧ (∃ e, complete_upload fx_db_gap fx_complete_req fx_listing_small true "loc"
          = (fx_db_gap, .error e, true)
      ∧ ((∃ n, e = .partNotFoundUpstream n) ∨ (∃ n s, e = .partTooSmall n s))
      ∧ ((∀ p ∈ fx_db_gap.parts.filter
            (fun p => p.upload_id == fx_up1_in_progress.upload_id),
            (s3_parts_lookup fx_listing_small p.part_number).isSome) →
          ∃ n s, e = .partTooSmall n s)
      ∧ ((∀ p ∈ fx_db_gap.parts.filter
            (fun p => p.upload_id == fx_up1_in_progress.upload_id),
            ∀ sp, s3_parts_lookup fx_listing_small p.part_number = some sp →
              p.part_number ≠ max_part_number (sorted_by_part_number
                (fx_db_gap.parts.filter
                  (fun p => p.upload_id == fx_up1_in_progress.upload_id))) →
              MIN_PART_SIZE ≤ sp.size) →
          ∃ n, e = .partNotFoundUpstream n)) :=
  ⟨rfl, ⟨by decide, rfl, by decide, by decide⟩,
   complete_upload_validation_failure_aborts fx_db_gap fx_complete_req
     fx_listing_small true "loc" fx_up1_in_progress rfl
     (Or.inr ⟨part_row fx_req_part1, by decide,
       { part_number := 1, size := 100, etag := "e1" }, rfl, by decide, by decide⟩)⟩

end S3py
